import Mathlib

/-!
Verification of the chat application `chatui.py`: the `<think>` segment
extractor `extract_thinking_and_content` and the `ChatManager` persistence
layer (title generation, upsert-by-id save, load, delete, reconnect).
Strings are modelled as `List Char` (Python `str` by codepoints); the
MongoDB collection is modelled as a list of records in insertion order
(`find_one` returns the first match, `insert_one` appends); each call to
`datetime.now()` is modelled as a separate timestamp parameter; a backend
exception is modelled by a boolean flag on the operations that catch it.
-/

namespace ChatUI

/-- Whitespace as stripped by Python `str.strip()` (ASCII part). -/
def isPySpace (c : Char) : Bool :=
  c == ' ' || c == '\t' || c == '\n' || c == '\r' || c == '\x0b' || c == '\x0c'

/-- Python `s.strip()`: drop leading and trailing whitespace. -/
def pyStrip (s : List Char) : List Char :=
  ((s.dropWhile isPySpace).reverse.dropWhile isPySpace).reverse

/-- First occurrence split: `splitFirst tok s = some (b, a)` when
`s = b ++ tok ++ a` and `b` is the shortest such prefix; `none` when `tok`
does not occur in `s`.  This is the primitive under `re.search` for a
literal, `str.split` and the `in` test. -/
def splitFirst (tok : List Char) : List Char → Option (List Char × List Char)
  | [] => none
  | c :: rest =>
    if tok.isPrefixOf (c :: rest) then some ([], (c :: rest).drop tok.length)
    else (splitFirst tok rest).map (fun p => (c :: p.1, p.2))

/-- Python `tok in s` substring test. -/
def containsTok (tok s : List Char) : Bool :=
  (splitFirst tok s).isSome

/-- The opening marker `<think>`. -/
def openTok : List Char := "<think>".data

/-- The closing marker `</think>`. -/
def closeTok : List Char := "</think>".data

/-- Leftmost match of the regex `<think>(.*?)</think>` (DOTALL): the match
starts at the first occurrence of `<think>` that is followed by a
`</think>`, and the lazy group ends at the first such `</think>`.
Returns `(pre, inner, post)` with `s = pre ++ openTok ++ inner ++ closeTok ++ post`.
Since no occurrence of `</think>` can begin inside an occurrence of
`<think>`, the regex match exists exactly when the first `<think>` is
followed by a `</think>`, which is what this computes. -/
def firstThinkMatch (s : List Char) : Option (List Char × List Char × List Char) :=
  match splitFirst openTok s with
  | none => none
  | some (pre, rest) =>
    match splitFirst closeTok rest with
    | none => none
    | some (inner, post) => some (pre, inner, post)

/-- Fuelled form of the regex substitution that deletes every
non-overlapping match, scanning left to right.  Each match consumes at least 15 characters,
so fuel `s.length` is always sufficient. -/
def removeThinkSpansFuel : Nat → List Char → List Char
  | 0, s => s
  | Nat.succ n, s =>
    match firstThinkMatch s with
    | none => s
    | some (pre, _, post) => pre ++ removeThinkSpansFuel n post

/-- Python re.sub of the DOTALL thinking pattern with empty replacement. -/
def removeThinkSpans (s : List Char) : List Char :=
  removeThinkSpansFuel s.length s

/-- Fuelled count of the non-overlapping regex matches, in the same
left-to-right scan as `re.sub`. -/
def thinkSpanCountFuel : Nat → List Char → Nat
  | 0, _ => 0
  | Nat.succ n, s =>
    match firstThinkMatch s with
    | none => 0
    | some (_, _, post) => 1 + thinkSpanCountFuel n post

/-- Number of complete `<think>...</think>` spans (non-overlapping regex
matches) in `s`. -/
def thinkSpanCount (s : List Char) : Nat :=
  thinkSpanCountFuel s.length s

/-- Fuelled form of `s.split(tok)[-1]`: the segment after the last
occurrence of `tok` (or `s` itself when `tok` does not occur). -/
def afterLastFuel (tok : List Char) : Nat → List Char → List Char
  | 0, s => s
  | Nat.succ n, s =>
    match splitFirst tok s with
    | none => s
    | some (_, rest) => afterLastFuel tok n rest

/-- Python `s.split(tok)[-1]`. -/
def afterLast (tok s : List Char) : List Char :=
  afterLastFuel tok s.length s

/-- The function `extract_thinking_and_content` of `chatui.py`, line for
line: if the regex `<think>(.*?)</think>` matches, return the stripped
group 1 and the stripped text with every match removed; else if `<think>`
occurs in the text, return the segment after the last `<think>` (from
text.split on the opening marker, last segment, not stripped) and `None`;
else return `None`
and the text unchanged. -/
def extract_thinking_and_content (text : List Char) :
    Option (List Char) × Option (List Char) :=
  match firstThinkMatch text with
  | some (_, inner, _) =>
    (some (pyStrip inner), some (pyStrip (removeThinkSpans text)))
  | none =>
    if containsTok openTok text then (some (afterLast openTok text), none)
    else (none, some text)

/-! Basic lemmas about `splitFirst` and `firstThinkMatch`. -/

theorem splitFirst_some_append (tok : List Char) :
    ∀ s b a : List Char, splitFirst tok s = some (b, a) → s = b ++ tok ++ a := by
  intro s
  induction s with
  | nil => intro b a h; simp [splitFirst] at h
  | cons c rest ih =>
    intro b a h
    by_cases hp : tok.isPrefixOf (c :: rest)
    · simp only [splitFirst, if_pos hp, Option.some.injEq, Prod.mk.injEq] at h
      obtain ⟨hb, ha⟩ := h
      subst hb
      obtain ⟨t, ht⟩ := (List.isPrefixOf_iff_prefix.mp hp)
      subst ha
      rw [← ht, List.drop_left, List.nil_append]
    · simp only [splitFirst, if_neg hp, Option.map_eq_some', Prod.mk.injEq] at h
      obtain ⟨⟨b', a'⟩, hsf, hb, ha⟩ := h
      subst hb ha
      simpa using congrArg (c :: ·) (ih b' a' hsf)

theorem splitFirst_some_length (tok : List Char) (htok : tok ≠ [])
    (s b a : List Char) (h : splitFirst tok s = some (b, a)) :
    a.length < s.length := by
  have hs := splitFirst_some_append tok s b a h
  have htl : 0 < tok.length := List.length_pos.mpr htok
  rw [hs]
  simp only [List.length_append]
  omega

theorem splitFirst_none_of_nil (tok : List Char) : splitFirst tok [] = none := rfl

theorem containsTok_false_iff (tok s : List Char) :
    containsTok tok s = false ↔ splitFirst tok s = none := by
  unfold containsTok
  cases splitFirst tok s <;> simp

theorem firstThinkMatch_of_splits (s pre rest inner post : List Char)
    (h1 : splitFirst openTok s = some (pre, rest))
    (h2 : splitFirst closeTok rest = some (inner, post)) :
    firstThinkMatch s = some (pre, inner, post) := by
  simp [firstThinkMatch, h1, h2]

theorem firstThinkMatch_eq_some (s pre inner post : List Char)
    (h : firstThinkMatch s = some (pre, inner, post)) :
    s = pre ++ openTok ++ inner ++ closeTok ++ post := by
  cases h1 : splitFirst openTok s with
  | none => simp [firstThinkMatch, h1] at h
  | some p =>
    obtain ⟨pre', rest⟩ := p
    cases h2 : splitFirst closeTok rest with
    | none => simp [firstThinkMatch, h1, h2] at h
    | some q =>
      obtain ⟨inner', post'⟩ := q
      simp only [firstThinkMatch, h1, h2, Option.some.injEq, Prod.mk.injEq] at h
      obtain ⟨rfl, rfl, rfl⟩ := h
      have e1 := splitFirst_some_append _ _ _ _ h1
      have e2 := splitFirst_some_append _ _ _ _ h2
      rw [e1, e2]
      simp [List.append_assoc]

theorem firstThinkMatch_none_of_not_contains (s : List Char)
    (h : containsTok openTok s = false) : firstThinkMatch s = none := by
  simp [firstThinkMatch, (containsTok_false_iff _ _).mp h]

theorem containsTok_of_firstThinkMatch (s pre inner post : List Char)
    (h : firstThinkMatch s = some (pre, inner, post)) :
    containsTok openTok s = true := by
  cases h1 : splitFirst openTok s with
  | none => simp [firstThinkMatch, h1] at h
  | some p => unfold containsTok; rw [h1]; rfl

/-! Branch lemmas for `extract_thinking_and_content` and the fuelled scans. -/

theorem extract_branch_match (text pre inner post : List Char)
    (h : firstThinkMatch text = some (pre, inner, post)) :
    extract_thinking_and_content text =
      (some (pyStrip inner), some (pyStrip (removeThinkSpans text))) := by
  simp [extract_thinking_and_content, h]

theorem extract_branch_open (text : List Char)
    (hn : firstThinkMatch text = none) (hc : containsTok openTok text = true) :
    extract_thinking_and_content text = (some (afterLast openTok text), none) := by
  simp [extract_thinking_and_content, hn, hc]

theorem extract_branch_plain (text : List Char)
    (hc : containsTok openTok text = false) :
    extract_thinking_and_content text = (none, some text) := by
  simp [extract_thinking_and_content, firstThinkMatch_none_of_not_contains text hc, hc]

theorem removeThinkSpansFuel_of_none (s : List Char)
    (h : firstThinkMatch s = none) :
    ∀ fuel, removeThinkSpansFuel fuel s = s := by
  intro fuel
  cases fuel with
  | zero => rfl
  | succ n => simp [removeThinkSpansFuel, h]

theorem removeThinkSpansFuel_of_some (s pre inner post : List Char) (n : Nat)
    (h : firstThinkMatch s = some (pre, inner, post)) :
    removeThinkSpansFuel (n + 1) s = pre ++ removeThinkSpansFuel n post := by
  simp [removeThinkSpansFuel, h]

theorem thinkSpanCountFuel_of_some (s pre inner post : List Char) (n : Nat)
    (h : firstThinkMatch s = some (pre, inner, post)) :
    thinkSpanCountFuel (n + 1) s = 1 + thinkSpanCountFuel n post := by
  simp [thinkSpanCountFuel, h]

theorem firstThinkMatch_none_of_count_zero (fuel : Nat) (s : List Char)
    (hlen : s.length ≤ fuel) (h : thinkSpanCountFuel fuel s = 0) :
    firstThinkMatch s = none := by
  cases fuel with
  | zero =>
    have : s = [] := List.length_eq_zero.mp (Nat.le_zero.mp hlen)
    subst this
    rfl
  | succ n =>
    cases hm : firstThinkMatch s with
    | none => rfl
    | some p =>
      obtain ⟨pre, inner, post⟩ := p
      rw [thinkSpanCountFuel_of_some s pre inner post n hm] at h
      omega

/-- With exactly one complete span, `re.sub` removes just that span. -/
theorem removeThinkSpans_one (text pre inner post : List Char)
    (hm : firstThinkMatch text = some (pre, inner, post))
    (hone : thinkSpanCount text = 1) :
    removeThinkSpans text = pre ++ post := by
  cases htext : text with
  | nil => rw [htext] at hm; exact absurd hm (by simp [firstThinkMatch, splitFirst])
  | cons c t =>
    subst htext
    have hdec := firstThinkMatch_eq_some _ _ _ _ hm
    have hlen : post.length ≤ t.length := by
      have := congrArg List.length hdec
      simp only [List.length_append, List.length_cons] at this
      have h7 : openTok.length = 7 := by decide
      have h8 : closeTok.length = 8 := by decide
      omega
    unfold thinkSpanCount at hone
    rw [List.length_cons, thinkSpanCountFuel_of_some _ pre inner post _ hm] at hone
    have hzero : thinkSpanCountFuel t.length post = 0 := by omega
    have hpost : firstThinkMatch post = none :=
      firstThinkMatch_none_of_count_zero t.length post hlen hzero
    unfold removeThinkSpans
    rw [List.length_cons, removeThinkSpansFuel_of_some _ pre inner post _ hm,
      removeThinkSpansFuel_of_none post hpost]

theorem afterLastFuel_of_none (tok s : List Char)
    (h : splitFirst tok s = none) :
    ∀ fuel, afterLastFuel tok fuel s = s := by
  intro fuel
  cases fuel with
  | zero => rfl
  | succ n => simp [afterLastFuel, h]

/-- The segment returned by `s.split(tok)[-1]` really is the part after the
last occurrence: `s` decomposes as `p ++ tok ++ result` and the result holds
no further occurrence of `tok`. -/
theorem afterLastFuel_decomp (tok : List Char) (htok : tok ≠ []) :
    ∀ (fuel : Nat) (s : List Char), s.length ≤ fuel →
      containsTok tok s = true →
      (∃ p, s = p ++ tok ++ afterLastFuel tok fuel s) ∧
        containsTok tok (afterLastFuel tok fuel s) = false := by
  intro fuel
  induction fuel with
  | zero =>
    intro s hlen hc
    have : s = [] := List.length_eq_zero.mp (Nat.le_zero.mp hlen)
    subst this
    simp [containsTok, splitFirst] at hc
  | succ n ih =>
    intro s hlen hc
    cases h1 : splitFirst tok s with
    | none => simp [containsTok, h1] at hc
    | some p =>
      obtain ⟨b, rest⟩ := p
      have hs := splitFirst_some_append tok s b rest h1
      have hstep : afterLastFuel tok (n + 1) s = afterLastFuel tok n rest := by
        simp [afterLastFuel, h1]
      have hrlen : rest.length ≤ n := by
        have := splitFirst_some_length tok htok s b rest h1
        omega
      cases hcr : containsTok tok rest with
      | true =>
        obtain ⟨⟨p', hp'⟩, hnc'⟩ := ih rest hrlen hcr
        rw [hstep]
        set A := afterLastFuel tok n rest with hA
        refine ⟨⟨b ++ tok ++ p', ?_⟩, hnc'⟩
        rw [hs, hp']
        simp [List.append_assoc]
      | false =>
        have heq : afterLastFuel tok n rest = rest :=
          afterLastFuel_of_none tok rest ((containsTok_false_iff tok rest).mp hcr) n
        refine ⟨⟨b, ?_⟩, ?_⟩
        · rw [hstep, heq]; exact hs
        · rw [hstep, heq]; exact hcr

theorem afterLast_decomp (tok s : List Char) (htok : tok ≠ [])
    (hc : containsTok tok s = true) :
    (∃ p, s = p ++ tok ++ afterLast tok s) ∧
      containsTok tok (afterLast tok s) = false :=
  afterLastFuel_decomp tok htok s.length s (Nat.le_refl _) hc

/-! Claim theorems for the extractor. -/

/-- Claim C1: for every text containing exactly one complete
`<think>...</think>` span — decomposed as `pre ++ <think> ++ inner ++
</think> ++ post` by the leftmost lazy regex match — the extractor returns
the stripped inner text and the stripped text with that span removed. -/
theorem extract_one_span (text pre inner post : List Char)
    (hm : firstThinkMatch text = some (pre, inner, post))
    (hone : thinkSpanCount text = 1) :
    extract_thinking_and_content text =
      (some (pyStrip inner), some (pyStrip (pre ++ post))) := by
  rw [extract_branch_match text pre inner post hm,
    removeThinkSpans_one text pre inner post hm hone]

/-- Witness for C1 at the example given in the spec. -/
theorem extract_one_span_w :
    firstThinkMatch "  <think>r</think>  answer  ".data =
      some ("  ".data, "r".data, "  answer  ".data) ∧
    thinkSpanCount "  <think>r</think>  answer  ".data = 1 ∧
    extract_thinking_and_content "  <think>r</think>  answer  ".data =
      (some "r".data, some "answer".data) := by
  refine ⟨by decide, by decide, ?_⟩
  have := extract_one_span "  <think>r</think>  answer  ".data
    "  ".data "r".data "  answer  ".data (by decide) (by decide)
  rw [this]
  decide

/-- Claim C2 counterexample: on `"<think> x"` (open marker, no close) the
code returns the raw segment after the marker, `" x"`, not the stripped
`"x"` the claim asserts. -/
theorem extract_open_no_close_cex :
    extract_thinking_and_content "<think> x".data = (some " x".data, none) ∧
    pyStrip " x".data ≠ " x".data ∧
    extract_thinking_and_content "<think> x".data ≠
      (some (pyStrip " x".data), none) := by
  refine ⟨by decide, by decide, by decide⟩

/-- Claim C2 (amended): for text containing `<think>` but no complete span,
the extractor returns the text after the last `<think>` marker, not
stripped, and no content; the returned segment contains no further
`<think>`. -/
theorem extract_open_no_close (text : List Char)
    (hopen : containsTok openTok text = true)
    (hnc : firstThinkMatch text = none) :
    extract_thinking_and_content text = (some (afterLast openTok text), none) ∧
    (∃ p, text = p ++ openTok ++ afterLast openTok text) ∧
    containsTok openTok (afterLast openTok text) = false := by
  obtain ⟨hdec, hnomore⟩ := afterLast_decomp openTok text (by decide) hopen
  exact ⟨extract_branch_open text hnc hopen, hdec, hnomore⟩

/-- Witness for C2 at the example given in the spec. -/
theorem extract_open_no_close_w :
    containsTok openTok "<think>partial reasoning, no close yet".data = true ∧
    extract_thinking_and_content "<think>partial reasoning, no close yet".data =
      (some "partial reasoning, no close yet".data, none) := by
  refine ⟨by decide, ?_⟩
  have := extract_open_no_close "<think>partial reasoning, no close yet".data
    (by decide) (by decide)
  rw [this.1]
  decide

/-- Claim C3 counterexample: on `"  plain  "` (no marker) the code returns
the text unchanged, not the stripped text the claim asserts. -/
theorem extract_plain_cex :
    extract_thinking_and_content "  plain  ".data = (none, some "  plain  ".data) ∧
    pyStrip "  plain  ".data ≠ "  plain  ".data ∧
    extract_thinking_and_content "  plain  ".data ≠
      (none, some (pyStrip "  plain  ".data)) := by
  refine ⟨by decide, by decide, by decide⟩

/-- Claim C3 (amended): for text containing no `<think>` marker, the
extractor returns no thinking and the text unchanged (not stripped). -/
theorem extract_plain (text : List Char)
    (hc : containsTok openTok text = false) :
    extract_thinking_and_content text = (none, some text) :=
  extract_branch_plain text hc

/-- Witness for C3 at the example given in the spec. -/
theorem extract_plain_w :
    containsTok openTok "plain text".data = false ∧
    extract_thinking_and_content "plain text".data =
      (none, some "plain text".data) :=
  ⟨by decide, extract_plain "plain text".data (by decide)⟩

/-- Claim C10: the absence pattern of the two results classifies the three
cases — content is absent exactly when the text has `<think>` but no
complete span; thinking is absent exactly when the text has no complete
span and no `<think>` at all; and for text containing `<think>` the two are
never both absent. -/
theorem extract_absence (text : List Char) :
    ((extract_thinking_and_content text).2 = none ↔
      containsTok openTok text = true ∧ firstThinkMatch text = none) ∧
    ((extract_thinking_and_content text).1 = none ↔
      firstThinkMatch text = none ∧ containsTok openTok text = false) ∧
    (containsTok openTok text = true →
      ¬((extract_thinking_and_content text).1 = none ∧
        (extract_thinking_and_content text).2 = none)) := by
  cases hm : firstThinkMatch text with
  | some p =>
    obtain ⟨pre, inner, post⟩ := p
    rw [extract_branch_match text pre inner post hm]
    simp [hm, containsTok_of_firstThinkMatch text pre inner post hm]
  | none =>
    cases hc : containsTok openTok text with
    | true =>
      rw [extract_branch_open text hm hc]
      simp [hm, hc]
    | false =>
      rw [extract_branch_plain text hc]
      simp [hm, hc]

/-- Witness for C10 (the conditional third conjunct) at `"<think>"`. -/
theorem extract_absence_w :
    containsTok openTok "<think>".data = true ∧
    ¬((extract_thinking_and_content "<think>".data).1 = none ∧
      (extract_thinking_and_content "<think>".data).2 = none) :=
  ⟨by decide, (extract_absence "<think>".data).2.2 (by decide)⟩

/-! The `ChatManager` persistence layer.  The MongoDB collection is a list
of records in insertion order: `find_one` returns the first record whose
`id` field matches, `update_one` updates the first match, `insert_one`
appends, `delete_one` removes the first match and reports a deleted count.
Each `datetime.now().isoformat()` call is a separate timestamp parameter,
in the order the source evaluates them (title fallback, then `updated_at`,
then `created_at`).  A backend exception inside a `try` block is modelled
by a boolean flag. -/

/-- A role-tagged message: a role field and a content field. -/
structure Message where
  role : List Char
  content : List Char
deriving DecidableEq

/-- A persisted chat record. -/
structure Conversation where
  id : List Char
  title : List Char
  messages : List Message
  system_prompt : List Char
  created_at : List Char
  updated_at : List Char
deriving DecidableEq

/-- The method `ChatManager.generate_chat_title`: first 50 characters of the
first user message, with an ellipsis marker appended when truncated, or a
timestamp-based default when no user message exists. -/
def generate_chat_title (now : List Char) : List Message → List Char
  | [] => "Chat ".data ++ now
  | msg :: rest =>
    if msg.role = "user".data then
      let content := msg.content.take 50
      if msg.content.length > 50 then content ++ "...".data else content
    else generate_chat_title now rest

/-- Mongo update_one filtered by id with a set document: rewrite the first
record whose id field matches. -/
def updateFirst (chat_id : List Char) (f : Conversation → Conversation) :
    List Conversation → List Conversation
  | [] => []
  | c :: rest =>
    if c.id == chat_id then f c :: rest else c :: updateFirst chat_id f rest

/-- The method `ChatManager.save_chat`.  `tTitle`, `tUpd`, `tCre` are the
three `datetime.now()` readings in source order: the one a title fallback
would embed, the one stored in `updated_at`, and the one stored in
`created_at` on insert.  A supplied title that is empty is falsy in Python
(`title if title else ...`), so it falls back like `None`.  If a record
with the id exists, `title` is popped from the update and `created_at` is
never part of it; otherwise the new record is appended. -/
def save_chat (store : List Conversation) (tTitle tUpd tCre : List Char)
    (chat_id : List Char) (messages : List Message) (system_prompt : List Char)
    (title : Option (List Char)) : List Conversation :=
  let titleVal : List Char :=
    match title with
    | some t => if t = [] then generate_chat_title tTitle messages else t
    | none => generate_chat_title tTitle messages
  if (store.find? (fun c => c.id == chat_id)).isSome then
    updateFirst chat_id
      (fun c =>
        { c with
          id := chat_id
          messages := messages
          system_prompt := system_prompt
          updated_at := tUpd })
      store
  else
    store ++ [{ id := chat_id
                title := titleVal
                messages := messages
                system_prompt := system_prompt
                created_at := tCre
                updated_at := tUpd }]

/-- The method `ChatManager.load_chat`: `find_one` inside `try`, with any
backend exception (`backendFails`) swallowed into `None`. -/
def load_chat (backendFails : Bool) (store : List Conversation)
    (chat_id : List Char) : Option Conversation :=
  if backendFails then none else store.find? (fun c => c.id == chat_id)

/-- Mongo delete_one filtered by id: remove the first match and report
the resulting store together with `deleted_count`. -/
def deleteFirst (chat_id : List Char) :
    List Conversation → List Conversation × Nat
  | [] => ([], 0)
  | c :: rest =>
    if c.id == chat_id then (rest, 1)
    else (c :: (deleteFirst chat_id rest).1, (deleteFirst chat_id rest).2)

/-- The method `ChatManager.delete_chat`: `delete_one(...).deleted_count > 0`
inside `try`, with any backend exception swallowed into `False`. -/
def delete_chat (backendFails : Bool) (store : List Conversation)
    (chat_id : List Char) : List Conversation × Bool :=
  if backendFails then (store, false)
  else
    let r := deleteFirst chat_id store
    (r.1, decide (0 < r.2))

/-! Connection lifecycle of `ChatManager.reconnect` / `ChatManager.close`.
Clients created by `pymongo.MongoClient` are numbered; `openIds` holds the
ids of clients not yet closed, `current` the client the manager points at. -/

/-- Observable connection events, in order of occurrence. -/
inductive ConnEv where
  | closedConn (n : Nat)
  | openedConn (n : Nat)
deriving DecidableEq

/-- Manager connection state. -/
structure MState where
  current : Option Nat
  openIds : List Nat
  nextId : Nat
deriving DecidableEq

/-- The method `ChatManager.close`: `if self.client: self.client.close()` —
closes the current client (if any) without forgetting it. -/
def close_conn (s : MState) : MState × List ConnEv :=
  match s.current with
  | none => (s, [])
  | some n => ({ s with openIds := s.openIds.erase n }, [ConnEv.closedConn n])

/-- The method `ChatManager.reconnect`: `if mongo_uri: self.close()`, then
`self.client = pymongo.MongoClient(mongo_uri)` and the collection is taken
from the new client (`dbName`/`collName` select it and create no
connection of their own). -/
def reconnect (uri dbName collName : List Char) (s : MState) :
    MState × List ConnEv :=
  let p := if uri.isEmpty then (s, []) else close_conn s
  ({ current := some p.1.nextId
     openIds := p.1.openIds ++ [p.1.nextId]
     nextId := p.1.nextId + 1 },
   p.2 ++ [ConnEv.openedConn p.1.nextId])

/-! Helper lemmas for the store. -/

theorem find?_id_first (pre post : List Conversation) (c : Conversation)
    (cid : List Char) (hpre : ∀ x ∈ pre, x.id ≠ cid) (hc : c.id = cid) :
    (pre ++ c :: post).find? (fun x => x.id == cid) = some c := by
  induction pre with
  | nil =>
    rw [List.nil_append]
    exact List.find?_cons_of_pos _ (by simp [hc])
  | cons a as ih =>
    have ha : a.id ≠ cid := hpre a (by simp)
    rw [List.cons_append, List.find?_cons_of_neg _ (by simp [ha])]
    exact ih (fun x hx => hpre x (by simp [hx]))

theorem updateFirst_append (pre post : List Conversation) (c : Conversation)
    (cid : List Char) (f : Conversation → Conversation)
    (hpre : ∀ x ∈ pre, x.id ≠ cid) (hc : c.id = cid) :
    updateFirst cid f (pre ++ c :: post) = pre ++ f c :: post := by
  induction pre with
  | nil => simp [updateFirst, hc]
  | cons a as ih =>
    have ha : a.id ≠ cid := hpre a (by simp)
    have ih' := ih (fun x hx => hpre x (by simp [hx]))
    simp only [List.cons_append, updateFirst, beq_iff_eq, ha, if_false,
      List.append_eq, ih']

theorem generate_chat_title_cons_non_user (now : List Char) (a : Message)
    (l : List Message) (ha : a.role ≠ "user".data) :
    generate_chat_title now (a :: l) = generate_chat_title now l := by
  simp [generate_chat_title, ha]

theorem skip_non_user (now : List Char) (pre l : List Message)
    (hpre : ∀ x ∈ pre, x.role ≠ "user".data) :
    generate_chat_title now (pre ++ l) = generate_chat_title now l := by
  induction pre with
  | nil => rfl
  | cons a as ih =>
    have ha : a.role ≠ "user".data := hpre a (by simp)
    rw [List.cons_append, generate_chat_title_cons_non_user now a (as ++ l) ha]
    exact ih (fun x hx => hpre x (by simp [hx]))

/-! Claim theorems for the store. -/

/-- Claim C4 counterexample: inserting a new record with the two
`datetime.now()` readings distinct (as two successive `isoformat()` calls
are) stores `created_at ≠ updated_at`; and a supplied empty title is falsy
in Python, so the stored title is the derived fallback (`"hi"`), not the
supplied title. -/
theorem save_chat_new_cex :
    save_chat [] "2024-01-01T00:00:00.000000".data "2024-01-01T00:00:00.000050".data
        "2024-01-01T00:00:00.000099".data "chat-1".data
        [⟨"user".data, "hi".data⟩] "sys".data (some []) =
      [⟨"chat-1".data, "hi".data, [⟨"user".data, "hi".data⟩], "sys".data,
        "2024-01-01T00:00:00.000099".data, "2024-01-01T00:00:00.000050".data⟩] ∧
    "2024-01-01T00:00:00.000099".data ≠ "2024-01-01T00:00:00.000050".data ∧
    "hi".data ≠ ([] : List Char) := by
  refine ⟨by decide, by decide, by decide⟩

/-- Claim C4 (amended): on an id not in the store, `save_chat` appends a
record whose `updated_at` and `created_at` are the respective clock
readings (equal whenever the two readings coincide, e.g. under a clock of
second granularity) and whose title is the supplied title when a non-empty
one is given, otherwise the derived fallback. -/
theorem save_chat_new (store : List Conversation)
    (tTitle tUpd tCre cid sp : List Char) (msgs : List Message)
    (title : Option (List Char)) (hnew : ∀ c ∈ store, c.id ≠ cid) :
    ∃ r : Conversation,
      save_chat store tTitle tUpd tCre cid msgs sp title = store ++ [r] ∧
      r.id = cid ∧ r.messages = msgs ∧ r.system_prompt = sp ∧
      r.created_at = tCre ∧ r.updated_at = tUpd ∧
      (∀ t, title = some t → t ≠ [] → r.title = t) ∧
      ((title = none ∨ title = some []) →
        r.title = generate_chat_title tTitle msgs) ∧
      (tCre = tUpd → r.created_at = r.updated_at) := by
  have hfind : store.find? (fun c => c.id == cid) = none :=
    List.find?_eq_none.mpr (fun x hx => by simp [hnew x hx])
  refine ⟨{ id := cid
            title := match title with
                     | some t => if t = [] then generate_chat_title tTitle msgs else t
                     | none => generate_chat_title tTitle msgs
            messages := msgs
            system_prompt := sp
            created_at := tCre
            updated_at := tUpd }, ?_, rfl, rfl, rfl, rfl, rfl, ?_, ?_, ?_⟩
  · simp [save_chat, hfind]
  · intro t ht hne
    subst ht
    simp [hne]
  · intro h
    rcases h with h | h <;> subst h <;> simp
  · intro h
    simp [h]

/-- Witness for C4 (amended) with coinciding clock readings and a
non-empty supplied title. -/
theorem save_chat_new_w :
    ∃ r : Conversation,
      save_chat [] "t0".data "t1".data "t1".data "c1".data [] "sp".data
          (some "T".data) = [] ++ [r] ∧
      r.id = "c1".data ∧ r.messages = [] ∧ r.system_prompt = "sp".data ∧
      r.created_at = "t1".data ∧ r.updated_at = "t1".data ∧
      (∀ t, some "T".data = some t → t ≠ [] → r.title = t) ∧
      ((some "T".data = none ∨ some "T".data = some []) →
        r.title = generate_chat_title "t0".data []) ∧
      ("t1".data = "t1".data → r.created_at = r.updated_at) :=
  save_chat_new [] "t0".data "t1".data "t1".data "c1".data "sp".data []
    (some "T".data) (by simp)

/-- Claim C5: on an id already in the store (first matching record),
`save_chat` rewrites the `messages`, `system_prompt` and
`updated_at` and leaves `title`, `created_at` and `id` unchanged, for every
supplied title. -/
theorem save_chat_existing (pre post : List Conversation) (c : Conversation)
    (tTitle tUpd tCre cid sp : List Char) (msgs : List Message)
    (title : Option (List Char))
    (hpre : ∀ x ∈ pre, x.id ≠ cid) (hc : c.id = cid) :
    ∃ c' : Conversation,
      save_chat (pre ++ c :: post) tTitle tUpd tCre cid msgs sp title =
        pre ++ c' :: post ∧
      c'.title = c.title ∧ c'.created_at = c.created_at ∧ c'.id = c.id ∧
      c'.messages = msgs ∧ c'.system_prompt = sp ∧ c'.updated_at = tUpd := by
  have hfind := find?_id_first pre post c cid hpre hc
  have hupd := updateFirst_append pre post c cid
    (fun x =>
      { x with
        id := cid
        messages := msgs
        system_prompt := sp
        updated_at := tUpd })
    hpre hc
  refine ⟨{ c with
            id := cid
            messages := msgs
            system_prompt := sp
            updated_at := tUpd }, ?_, rfl, rfl, hc.symm, rfl, rfl, rfl⟩
  simp [save_chat, hfind, hupd]

/-- Witness for C5: an existing record keeps its title and creation time
even though a new title is supplied. -/
theorem save_chat_existing_w :
    ∃ c' : Conversation,
      save_chat [⟨"c1".data, "Old".data, [], "sp0".data, "t0".data, "t0".data⟩]
          "t2".data "t3".data "t4".data "c1".data
          [⟨"user".data, "hi".data⟩] "sp1".data (some "New".data) =
        [] ++ c' :: [] ∧
      c'.title = "Old".data ∧ c'.created_at = "t0".data ∧ c'.id = "c1".data ∧
      c'.messages = [⟨"user".data, "hi".data⟩] ∧
      c'.system_prompt = "sp1".data ∧ c'.updated_at = "t3".data :=
  save_chat_existing [] [] ⟨"c1".data, "Old".data, [], "sp0".data, "t0".data, "t0".data⟩
    "t2".data "t3".data "t4".data "c1".data "sp1".data
    [⟨"user".data, "hi".data⟩] (some "New".data) (by simp) rfl

/-- Claim C6: the derived title is the first 50 characters of the first
user message content plus the ellipsis marker when that content is longer
than 50,
the content itself when not, and the timestamp-based default when no user
message exists. -/
theorem generate_chat_title_spec (now : List Char) (pre rest msgs : List Message)
    (m : Message) (hpre : ∀ x ∈ pre, x.role ≠ "user".data)
    (hm : m.role = "user".data) (hnone : ∀ x ∈ msgs, x.role ≠ "user".data) :
    (m.content.length > 50 →
      generate_chat_title now (pre ++ m :: rest) =
        m.content.take 50 ++ "...".data) ∧
    (m.content.length ≤ 50 →
      generate_chat_title now (pre ++ m :: rest) = m.content) ∧
    generate_chat_title now msgs = "Chat ".data ++ now := by
  have hskip := skip_non_user now pre (m :: rest) hpre
  have hcons : generate_chat_title now (m :: rest) =
      if m.content.length > 50 then m.content.take 50 ++ "...".data
      else m.content.take 50 := by
    simp [generate_chat_title, hm]
  refine ⟨?_, ?_, ?_⟩
  · intro h
    rw [hskip, hcons, if_pos h]
  · intro h
    rw [hskip, hcons, if_neg (by omega), List.take_of_length_le h]
  · have hall := skip_non_user now msgs [] hnone
    rw [List.append_nil] at hall
    rw [hall]
    rfl

/-- Witness for C6: a 60-character user message is truncated to 50 plus an
ellipsis, a 5-character one is kept whole, and a user-free list gets the
timestamp default. -/
theorem generate_chat_title_spec_w :
    generate_chat_title "NOW".data [⟨"user".data, List.replicate 60 'x'⟩] =
      List.replicate 50 'x' ++ "...".data ∧
    generate_chat_title "NOW".data [⟨"user".data, "hello".data⟩] = "hello".data ∧
    generate_chat_title "NOW".data [⟨"system".data, "s".data⟩] =
      "Chat ".data ++ "NOW".data := by
  refine ⟨?_, ?_, ?_⟩
  · have h := (generate_chat_title_spec "NOW".data [] [] [⟨"system".data, "s".data⟩]
      ⟨"user".data, List.replicate 60 'x'⟩ (by simp) rfl (by decide)).1 (by simp)
    simpa using h
  · exact (generate_chat_title_spec "NOW".data [] [] [⟨"system".data, "s".data⟩]
      ⟨"user".data, "hello".data⟩ (by simp) rfl (by decide)).2.1 (by decide)
  · exact (generate_chat_title_spec "NOW".data [] [] [⟨"system".data, "s".data⟩]
      ⟨"user".data, "hello".data⟩ (by simp) rfl (by decide)).2.2

theorem deleteFirst_spec (cid : List Char) (store : List Conversation) :
    (0 < (deleteFirst cid store).2 ↔ ∃ c ∈ store, c.id = cid) ∧
    (deleteFirst cid store).1.length + (deleteFirst cid store).2 = store.length ∧
    (deleteFirst cid store).2 ≤ 1 := by
  induction store with
  | nil => simp [deleteFirst]
  | cons a rest ih =>
    obtain ⟨ih1, ih2, ih3⟩ := ih
    by_cases ha : a.id = cid
    · simp [deleteFirst, ha]
    · simp only [deleteFirst, beq_iff_eq, ha, if_false]
      refine ⟨?_, ?_, ih3⟩
      · simp only [List.mem_cons]
        constructor
        · intro h
          rcases ih1.mp h with ⟨c, hc1, hc2⟩
          exact ⟨c, Or.inr hc1, hc2⟩
        · rintro ⟨c, hc1 | hc1, hc2⟩
          · exact absurd (hc1 ▸ hc2) ha
          · exact ih1.mpr ⟨c, hc1, hc2⟩
      · simp only [List.length_cons]
        omega

/-- Claim C7: without a backend error, `delete_chat` returns true exactly
when a record with the id existed, and the record count drops by the
returned flag; on a backend error it returns false and leaves the store
as is (the exception is swallowed, never propagated). -/
theorem delete_chat_spec (store : List Conversation) (cid : List Char) :
    ((delete_chat false store cid).2 = true ↔ ∃ c ∈ store, c.id = cid) ∧
    (delete_chat false store cid).1.length +
      ((delete_chat false store cid).2).toNat = store.length ∧
    delete_chat true store cid = (store, false) := by
  obtain ⟨h1, h2, h3⟩ := deleteFirst_spec cid store
  refine ⟨?_, ?_, rfl⟩
  · simpa [delete_chat] using h1
  · have hcase : (deleteFirst cid store).2 = 0 ∨ (deleteFirst cid store).2 = 1 := by
      omega
    rcases hcase with hn | hn <;>
      rw [hn] at h2 <;> simp [delete_chat, hn] <;> omega

/-- Claim C8: `load_chat` returns the stored record (the first with the
id) when one exists and the backend does not fail, and absent on a backend
error — the exception is swallowed, never propagated. -/
theorem load_chat_spec (pre post : List Conversation) (c : Conversation)
    (cid : List Char) (hpre : ∀ x ∈ pre, x.id ≠ cid) (hc : c.id = cid) :
    load_chat false (pre ++ c :: post) cid = some c ∧
    load_chat true (pre ++ c :: post) cid = none :=
  ⟨by simp [load_chat, find?_id_first pre post c cid hpre hc], rfl⟩

/-- Witness for C8 on a one-record store. -/
theorem load_chat_spec_w :
    load_chat false [⟨"c1".data, "T".data, [], "sp".data, "t0".data, "t0".data⟩]
        "c1".data =
      some ⟨"c1".data, "T".data, [], "sp".data, "t0".data, "t0".data⟩ ∧
    load_chat true [⟨"c1".data, "T".data, [], "sp".data, "t0".data, "t0".data⟩]
        "c1".data = none :=
  load_chat_spec [] [] ⟨"c1".data, "T".data, [], "sp".data, "t0".data, "t0".data⟩
    "c1".data (by simp) rfl

/-- Claim C9: a `reconnect` to a (non-empty) target while a client is held
first emits the close of the prior client and only then the opening of the
new one, and afterwards the current client of the manager is the newly opened,
fully open one — no operation runs against a half-closed client. -/
theorem reconnect_spec (uri dbName collName : List Char) (s : MState) (old : Nat)
    (huri : uri.isEmpty = false) (hcur : s.current = some old) :
    (reconnect uri dbName collName s).2 =
      [ConnEv.closedConn old, ConnEv.openedConn s.nextId] ∧
    (reconnect uri dbName collName s).1.current = some s.nextId ∧
    s.nextId ∈ (reconnect uri dbName collName s).1.openIds := by
  simp [reconnect, close_conn, huri, hcur]

/-- Witness for C9 on the default target with client 0 held. -/
theorem reconnect_spec_w :
    (reconnect "mongodb://localhost:27017".data "llm_chat".data "chats".data
        ⟨some 0, [0], 1⟩).2 = [ConnEv.closedConn 0, ConnEv.openedConn 1] ∧
    (reconnect "mongodb://localhost:27017".data "llm_chat".data "chats".data
        ⟨some 0, [0], 1⟩).1.current = some 1 ∧
    1 ∈ (reconnect "mongodb://localhost:27017".data "llm_chat".data "chats".data
        ⟨some 0, [0], 1⟩).1.openIds :=
  reconnect_spec "mongodb://localhost:27017".data "llm_chat".data "chats".data
    ⟨some 0, [0], 1⟩ 0 (by decide) rfl

end ChatUI
